import Mathlib

/-!
Verification development for the choose-rich repository.

The development shallowly embeds the parts of the code the claims are
about:

- the client utility toApiAmount (client utils);
- the GenerateNumber Solidity contract (requestNumber fee check and
  entropyCallback modulo-10 reduction);
- the random-verifiable-server event-watch state machine
  (generateRandomNumber in server.js): first-match resolution,
  60-second timeout, unwatch on settle, and the /random endpoint;
- the client ApiClient retry loop (makeRequest / retryRequest);
- the BalanceLedger, Mines session and Apex Blinder session operations,
  whose Rust implementation is not part of the available sources and is
  therefore modelled from the specification text.

Numbers follow the source: JavaScript / Solidity non-negative integers
become Nat, monetary amounts and multipliers become Rat (the backend
stores them as arbitrary-precision NUMERIC), fallible operations return
Except or Option.
-/

/-! ## Client utilities: toApiAmount (src/unnamed/part_009)

The JavaScript number argument is embedded as an Option Rat: none stands
for NaN, some a for an ordinary numeric value a. -/

/-- Embedding of toApiAmount: returns 0 for NaN or non-positive amounts,
otherwise the floor of amount scaled by 10 to the decimals power
(decimals defaults to 8 in the source). -/
def toApiAmount (amount : Option ℚ) (decimals : ℕ := 8) : ℤ :=
  match amount with
  | none => 0
  | some a => if a ≤ 0 then 0 else Int.floor (a * (10 : ℚ) ^ decimals)

/-! ## GenerateNumber contract (src/server/example_usage.md, Solidity)

The contract charges the Pyth entropy fee; a call with msg.value below
the quoted fee reverts with InsufficientFee before any request is
submitted to the entropy provider. The entropy callback reduces the raw
256-bit random word modulo 10 and emits it in a NumberResult event. -/

/-- Errors of the GenerateNumber contract library GenerateNumberErrors. -/
inductive GNError where
  | incorrectSender
  | insufficientFee
  deriving DecidableEq, Repr

/-- Outcome of a call to requestNumber: either the transaction reverts
with an error, or the request is accepted with a sequence number. -/
inductive RequestOutcome where
  | reverted (e : GNError)
  | accepted (sequenceNumber : ℕ)
  deriving DecidableEq, Repr

/-- A randomness request recorded at the entropy provider. -/
structure ProviderRequest where
  sequenceNumber : ℕ
  feePaid : ℕ
  deriving DecidableEq, Repr

/-- Embedding of GenerateNumber.requestNumber: fee is the value of
entropy.getFeeV2 at submission time, nextSeq the sequence number the
provider would assign. Returns the call outcome together with the list
of requests submitted to the provider during the call. -/
def requestNumber (fee nextSeq msgValue : ℕ) :
    RequestOutcome × List ProviderRequest :=
  if msgValue < fee then
    (RequestOutcome.reverted GNError.insufficientFee, [])
  else
    (RequestOutcome.accepted nextSeq, [⟨nextSeq, fee⟩])

/-- A NumberResult event as emitted by the contract. -/
structure NumberResultEvent where
  sequenceNumber : ℕ
  randomNumber : ℕ
  deriving DecidableEq, Repr

/-- Embedding of GenerateNumber.entropyCallback: the raw 256-bit random
word is reduced modulo 10 and emitted in a NumberResult event. -/
def entropyCallback (sequenceNumber rawRandomWord : ℕ) : NumberResultEvent :=
  ⟨sequenceNumber, rawRandomWord % 10⟩

/-! ## Event watch of generateRandomNumber
(src/random-verifiable-server/server.js)

After the request transaction is confirmed, server.js opens a
NumberResult event watch from block receipt.blockNumber - 1 onward and
races it against a 60000 ms timer. The onLogs handler scans each
delivered log; on the first log whose sequenceNumber matches it calls
unwatch() and resolves the promise (later matching logs call resolve on
an already-settled promise, which is a no-op). The timer, when it
fires, calls unwatch() and rejects the promise if it is still pending.

Events are embedded with the block they were emitted in and their
delivery time in milliseconds measured from request acceptance (the
moment the timer is armed). -/

/-- A NumberResult log observed by the watcher. -/
structure WatchedLog where
  block : ℕ
  time : ℕ
  sequenceNumber : ℕ
  randomNumber : ℕ
  deriving DecidableEq, Repr

/-- Settlement state of the promise raced inside generateRandomNumber. -/
inductive WatchOutcome where
  | pending
  | resolved (value : ℕ)
  | timedOut
  deriving DecidableEq, Repr

/-- State of the watch: whether the event subscription is still active
and how the promise has settled. -/
structure WatchState where
  watching : Bool
  outcome : WatchOutcome
  deriving DecidableEq, Repr

/-- Initial watch state, right after watchEvent.NumberResult returns. -/
def initWatch : WatchState := ⟨true, WatchOutcome.pending⟩

/-- The JavaScript timeout constant: 60 seconds in milliseconds. -/
def watchTimeoutMs : ℕ := 60000

/-- Embedding of one iteration of the onLogs loop body for a single
log: a matching log calls unwatch() and resolves the promise; resolving
an already-settled promise has no effect; a non-matching log is
skipped. -/
def deliverLog (seq : ℕ) (s : WatchState) (e : WatchedLog) : WatchState :=
  if e.sequenceNumber = seq then
    match s.outcome with
    | WatchOutcome.pending => ⟨false, WatchOutcome.resolved e.randomNumber⟩
    | o => ⟨false, o⟩
  else s

/-- Embedding of the 60-second timer callback: unwatch() and reject the
promise if it is still pending; rejecting a settled promise has no
effect. -/
def timeoutFire (s : WatchState) : WatchState :=
  match s.outcome with
  | WatchOutcome.pending => ⟨false, WatchOutcome.timedOut⟩
  | o => ⟨false, o⟩

/-- The lower block bound of the watch: server.js subscribes from
receipt.blockNumber - 1 (BigInt subtraction on the block of the
transaction that accepted the request). -/
def watchFromBlock (acceptBlock : ℕ) : ℕ := acceptBlock - 1

/-- A log is delivered to the onLogs handler when it lies in the
watched block range and arrives while the watch is still armed, i.e.
before the 60-second timer fires. -/
def observedLogs (acceptBlock : ℕ) (events : List WatchedLog) :
    List WatchedLog :=
  events.filter fun e =>
    watchFromBlock acceptBlock ≤ e.block && e.time < watchTimeoutMs

/-- Embedding of the promise race inside generateRandomNumber: deliver
the observed logs in arrival order, then fire the timer. -/
def runWatch (seq acceptBlock : ℕ) (events : List WatchedLog) : WatchState :=
  timeoutFire ((observedLogs acceptBlock events).foldl (deliverLog seq) initWatch)

/-- Embedding of generateRandomNumber after request acceptance: await
the race, reduce a resolved value modulo 10, turn a timeout into a
thrown error (the catch block rethrows it). -/
def generateRandomNumber (seq acceptBlock : ℕ) (events : List WatchedLog) :
    Except String ℕ :=
  match (runWatch seq acceptBlock events).outcome with
  | WatchOutcome.resolved v => Except.ok (v % 10)
  | _ => Except.error "Timeout waiting for random number"

/-- An HTTP response of the oracle server, reduced to the fields the
claims are about. -/
structure OracleHttpResponse where
  status : ℕ
  success : Bool
  randomNumber : Option ℕ
  deriving DecidableEq, Repr

/-- Embedding of the GET /random handler: it invokes
generateRandomNumber exactly once; an ok value is returned with status
200, an error is mapped to a 500 response. The second component counts
the generateRandomNumber invocations the handler performs. -/
def randomEndpoint (seq acceptBlock : ℕ) (events : List WatchedLog) :
    OracleHttpResponse × ℕ :=
  match generateRandomNumber seq acceptBlock events with
  | Except.ok v => (⟨200, true, some v⟩, 1)
  | Except.error _ => (⟨500, false, none⟩, 1)

/-! ## ApiClient retry loop (src/client/src/api/client.ts)

makeRequest throws on any non-ok HTTP response (response.ok is false
exactly when the status is outside 200-299). retryRequest catches any
error and, while attempt < API_CONFIG.RETRY.ATTEMPTS, sleeps and calls
itself with attempt + 1; only when the attempt budget is exhausted does
the error propagate to the caller. The responses the server would give
to successive attempts are embedded as a function from the (1-based)
attempt index. -/

/-- An HTTP response as seen by fetch, reduced to status and body. -/
structure HttpResp where
  status : ℕ
  body : String
  deriving DecidableEq, Repr

/-- The response.ok predicate of fetch: status in the range 200-299. -/
def respOk (r : HttpResp) : Bool := 200 ≤ r.status && r.status ≤ 299

/-- Embedding of ApiClient.makeRequest on an HTTP response: a non-ok
response becomes a thrown error carrying the status, an ok response
yields the body. -/
def makeRequest (r : HttpResp) : Except String String :=
  if respOk r then Except.ok r.body
  else Except.error ("HTTP " ++ toString r.status)

/-- API_CONFIG.RETRY.ATTEMPTS (src/client/src/api/types.ts). -/
def retryAttemptBudget : ℕ := 3

/-- Embedding of ApiClient.retryRequest: the result of the call
together with the total number of HTTP requests issued. -/
def retryRequest (responses : ℕ → HttpResp) (attempt : ℕ) :
    Except String String × ℕ :=
  match makeRequest (responses attempt) with
  | Except.ok v => (Except.ok v, 1)
  | Except.error e =>
    if h : attempt < retryAttemptBudget then
      let rest := retryRequest responses (attempt + 1)
      (rest.1, rest.2 + 1)
    else (Except.error e, 1)
termination_by retryAttemptBudget - attempt

/-- Embedding of ApiClient.post and ApiClient.get: both enter the retry
loop at attempt 1. -/
def sendRequest (responses : ℕ → HttpResp) : Except String String × ℕ :=
  retryRequest responses 1

/-! ## BalanceLedger

The BalanceLedger lives in the Rust backend, whose sources are not part
of the available tree (only its API documentation and callers are), so
it is modelled from the specification. -/

/-- Kind of a ledger transaction (spec section 3, LedgerTransaction). -/
inductive TxnKind where
  | deposit
  | gameStake
  | gameWin
  | cashout
  deriving DecidableEq, Repr

/-- Modelled from the spec: an immutable LedgerTransaction fact with the
signed effect of the operation on the balance and the optional external
reference used for deposit deduplication (spec section 3). -/
structure LedgerTxn where
  user : String
  kind : TxnKind
  amount : ℤ
  externalRef : Option String
  deriving DecidableEq, Repr

/-- Modelled from the spec: BalanceLedger state, a per-user balance map
and the append-only transaction log (newest first). -/
structure LedgerState where
  balance : String → ℤ
  txns : List LedgerTxn

/-- The external references already recorded in the log, used by
record_if_new for idempotence. -/
def recordedRefs (s : LedgerState) : List String :=
  s.txns.filterMap (fun t => t.externalRef)

/-- The signed sum of one user's transaction amounts in the log. -/
def userTxnSum (u : String) (txns : List LedgerTxn) : ℤ :=
  ((txns.filter (fun t => t.user = u)).map (fun t => t.amount)).sum

/-- Update of the balance map at one user. -/
def setBalance (b : String → ℤ) (u : String) (v : ℤ) : String → ℤ :=
  fun u2 => if u2 = u then v else b u2

/-- The BalanceLedger operations of spec section 4.4. For debit and
credit the transaction kind is supplied by the caller (game_stake,
game_win or cashout); record_if_new always records a deposit. -/
inductive LedgerOp where
  | debit (user : String) (kind : TxnKind) (amount : ℕ)
  | credit (user : String) (kind : TxnKind) (amount : ℕ)
  | recordIfNew (ref : String) (user : String) (amount : ℕ)
  deriving DecidableEq, Repr

/-- Modelled from the spec: BalanceLedger.debit fails with
InsufficientBalance when the balance is short and otherwise atomically
decrements the balance and appends a transaction with amount equal to
the negated debit (spec sections 3 and 4.4); the failing branch leaves
the state untouched. -/
def ledgerDebit (s : LedgerState) (u : String) (k : TxnKind) (a : ℕ) :
    Except String LedgerState :=
  if s.balance u < (a : ℤ) then Except.error "InsufficientBalance"
  else Except.ok
    { balance := setBalance s.balance u (s.balance u - (a : ℤ))
      txns := ⟨u, k, -(a : ℤ), none⟩ :: s.txns }

/-- Modelled from the spec: BalanceLedger.credit atomically increments
the balance and appends a transaction with the credited amount. -/
def ledgerCredit (s : LedgerState) (u : String) (k : TxnKind) (a : ℕ)
    (ref : Option String) : LedgerState :=
  { balance := setBalance s.balance u (s.balance u + (a : ℤ))
    txns := ⟨u, k, (a : ℤ), ref⟩ :: s.txns }

/-- Modelled from the spec: BalanceLedger.record_if_new credits the
deposit unless a transaction with the same external reference is
already recorded, in which case it is an idempotent no-op reporting
credited = false. -/
def ledgerRecordIfNew (s : LedgerState) (ref : String) (u : String) (a : ℕ) :
    Bool × LedgerState :=
  if ref ∈ recordedRefs s then (false, s)
  else (true, ledgerCredit s u TxnKind.deposit a (some ref))

/-- One completed BalanceLedger operation: a failed debit leaves the
state unchanged. -/
def applyLedgerOp (s : LedgerState) (op : LedgerOp) : LedgerState :=
  match op with
  | LedgerOp.debit u k a =>
    match ledgerDebit s u k a with
    | Except.ok s2 => s2
    | Except.error _ => s
  | LedgerOp.credit u k a => ledgerCredit s u k a none
  | LedgerOp.recordIfNew r u a => (ledgerRecordIfNew s r u a).2

/-- The reconciliation invariant of spec section 3: every user's stored
balance equals the sum of that user's transaction amounts. -/
def LedgerConsistent (s : LedgerState) : Prop :=
  ∀ u : String, s.balance u = userTxnSum u s.txns

/-- The empty ledger: zero balances, no transactions. -/
def emptyLedger : LedgerState := { balance := fun _ => 0, txns := [] }

/-- Appending a transaction changes only its own user's sum, by exactly
its amount. -/
theorem userTxnSum_cons (u : String) (t : LedgerTxn) (txns : List LedgerTxn) :
    userTxnSum u (t :: txns) =
      (if t.user = u then t.amount else 0) + userTxnSum u txns := by
  by_cases h : t.user = u <;>
    simp [userTxnSum, List.filter_cons, h]

/-- ledgerCredit preserves the reconciliation invariant. -/
theorem ledgerCredit_consistent (s : LedgerState) (u : String) (k : TxnKind)
    (a : ℕ) (ref : Option String) (hs : LedgerConsistent s) :
    LedgerConsistent (ledgerCredit s u k a ref) := by
  intro u2
  simp only [ledgerCredit, userTxnSum_cons, setBalance]
  by_cases h : u2 = u
  · subst h
    simp [hs u2]
    ring
  · have h2 : ¬ (u = u2) := fun hh => h hh.symm
    simp [h, h2, hs u2]

/-- ledgerDebit preserves the reconciliation invariant in both the
successful and the failing branch. -/
theorem ledgerDebit_consistent (s : LedgerState) (u : String) (k : TxnKind)
    (a : ℕ) (hs : LedgerConsistent s) :
    LedgerConsistent (match ledgerDebit s u k a with
      | Except.ok s2 => s2
      | Except.error _ => s) := by
  by_cases hb : s.balance u < (a : ℤ)
  · simp [ledgerDebit, hb, hs]
  · simp only [ledgerDebit, hb, if_false]
    intro u2
    simp only [userTxnSum_cons, setBalance]
    by_cases h : u2 = u
    · subst h
      simp [hs u2]
      ring
    · have h2 : ¬ (u = u2) := fun hh => h hh.symm
      simp [h, h2, hs u2]

/-- ledgerRecordIfNew preserves the reconciliation invariant in both
branches. -/
theorem ledgerRecordIfNew_consistent (s : LedgerState) (ref : String)
    (u : String) (a : ℕ) (hs : LedgerConsistent s) :
    LedgerConsistent (ledgerRecordIfNew s ref u a).2 := by
  by_cases h : ref ∈ recordedRefs s
  · simpa [ledgerRecordIfNew, h] using hs
  · simpa [ledgerRecordIfNew, h] using
      ledgerCredit_consistent s u TxnKind.deposit a (some ref) hs

/-- Every single completed BalanceLedger operation preserves the
reconciliation invariant. -/
theorem applyLedgerOp_consistent (s : LedgerState) (op : LedgerOp)
    (hs : LedgerConsistent s) : LedgerConsistent (applyLedgerOp s op) := by
  cases op with
  | debit u k a => exact ledgerDebit_consistent s u k a hs
  | credit u k a => exact ledgerCredit_consistent s u k a none hs
  | recordIfNew r u a => exact ledgerRecordIfNew_consistent s r u a hs

/-! ## Mines game sessions

The Mines session logic lives in the Rust backend, whose sources are
not part of the available tree (only API documentation and the client
are), so it is modelled from the specification (section 4.2): stake is
debited at start, the session begins Active with multiplier 1 and no
reveals, each safe reveal multiplies the raw multiplier by
remaining cells / remaining safe cells, and the 1 percent house edge is
applied once to the cumulative multiplier. -/

/-- Session status as exposed by the API (src/client/src/api/types.ts). -/
inductive SessionStatus where
  | active
  | ended
  deriving DecidableEq, Repr

/-- The house edge of 1 percent applied to the cumulative multiplier. -/
def houseEdge : ℚ := 1 / 100

/-- Modelled from the spec: the raw cumulative Mines multiplier after k
safe reveals, the product over the reveals of
remaining cells before the reveal / remaining safe cells before it. -/
def rawMultiplier (blocks mines : ℕ) : ℕ → ℚ
  | 0 => 1
  | k + 1 =>
    rawMultiplier blocks mines k *
      (((blocks : ℚ) - (k : ℚ)) / ((blocks : ℚ) - (mines : ℚ) - (k : ℚ)))

/-- Modelled from the spec: the discounted Mines multiplier after k
safe reveals, the house edge applied once to the cumulative product. -/
def minesMultiplier (blocks mines k : ℕ) : ℚ :=
  (1 - houseEdge) * rawMultiplier blocks mines k

/-- Rounding of payouts to two decimals as used by the client display
helpers (Math.round(x * 100) / 100 in src/client/src/hooks/useMinesGame.ts)
and by the documented payout examples. -/
def round2 (q : ℚ) : ℚ := (Int.floor (q * 100 + 1 / 2) : ℚ) / 100

/-- Modelled from the spec: a Mines game session (spec section 3,
GameSession, Mines variant state). Revealed cells are kept newest
first. -/
structure MinesSession where
  stake : ℚ
  blocks : ℕ
  mines : ℕ
  mineLayout : Finset ℕ
  revealed : List ℕ
  status : SessionStatus
  currentMultiplier : ℚ
  finalPayout : Option ℚ
  deriving DecidableEq

/-- A natural number is a perfect square grid size when some g with
g * g = blocks exists (4, 9, 16, 25 and so on). -/
def isSquareGrid (blocks : ℕ) : Bool :=
  (List.range (blocks + 1)).any (fun g => g * g == blocks)

/-- Modelled from the spec: starting a Mines session (spec section 4.2,
steps 1 to 4): validate 1 <= mines < blocks and a perfect square grid,
debit the stake from the balance (InsufficientBalance when short),
store the hidden layout, and return an Active session with zero
revealed cells and multiplier 1 together with the new balance. -/
def minesStart (balance stake : ℚ) (blocks mines : ℕ)
    (layout : Finset ℕ) : Except String (MinesSession × ℚ) :=
  if ¬ (1 ≤ mines ∧ mines < blocks ∧ isSquareGrid blocks = true) then
    Except.error "InvalidConfig"
  else if ¬ (layout.card = mines ∧ ∀ c ∈ layout, c < blocks) then
    Except.error "InvalidLayout"
  else if balance < stake then Except.error "InsufficientBalance"
  else Except.ok
    ({ stake := stake, blocks := blocks, mines := mines,
       mineLayout := layout, revealed := [],
       status := SessionStatus.active, currentMultiplier := 1,
       finalPayout := none }, balance - stake)

/-- Modelled from the spec: revealing a cell (spec section 4.2, Move):
reject when the session is not Active, the cell was already revealed or
is out of range; a mined cell ends the session as a loss with no
credit; a safe cell is marked revealed and the multiplier recomputed,
auto-resolving as a win when every safe cell is revealed. -/
def minesReveal (s : MinesSession) (cell : ℕ) : Except String MinesSession :=
  if s.status ≠ SessionStatus.active then Except.error "InvalidSessionState"
  else if cell ∈ s.revealed then Except.error "InvalidSessionState"
  else if s.blocks ≤ cell then Except.error "InvalidSessionState"
  else if cell ∈ s.mineLayout then
    Except.ok { s with status := SessionStatus.ended, finalPayout := some 0 }
  else
    let k := s.revealed.length + 1
    let m := minesMultiplier s.blocks s.mines k
    if k = s.blocks - s.mines then
      Except.ok { s with revealed := cell :: s.revealed,
                         currentMultiplier := m,
                         status := SessionStatus.ended,
                         finalPayout := some (round2 (s.stake * m)) }
    else
      Except.ok { s with revealed := cell :: s.revealed,
                         currentMultiplier := m }

/-- Modelled from the spec: cashing out (spec section 4.2, Cashout):
reject when the session is not Active or no safe cell has been revealed
yet; otherwise end the session as a win with final payout equal to the
stake times the current multiplier. -/
def minesCashout (s : MinesSession) : Except String MinesSession :=
  if s.status ≠ SessionStatus.active then Except.error "InvalidSessionState"
  else if s.revealed = [] then Except.error "InvalidSessionState"
  else Except.ok
    { s with status := SessionStatus.ended,
             finalPayout := some (round2 (s.stake * s.currentMultiplier)) }

/-! ## Apex Blinder sessions

Likewise modelled from the specification (section 4.3, Blinder mode):
both numbers are drawn at start, compared by strict greater-than, and
the session resolves in the same call at a fixed payout percentage. -/

/-- Modelled from the spec: the terminal state of an Apex Blinder
session. -/
structure ApexBlinderResult where
  stake : ℚ
  systemNumber : ℕ
  userNumber : ℕ
  won : Bool
  payout : ℚ
  status : SessionStatus
  deriving DecidableEq, Repr

/-- Modelled from the spec: starting an Apex Blinder session draws both
numbers, compares them by strict greater-than and auto-resolves in the
same call; a win pays stake times the fixed payout percentage, a tie or
loss pays 0. -/
def apexBlinderStart (stake : ℚ) (systemNumber userNumber : ℕ)
    (payoutPercentage : ℚ) : ApexBlinderResult :=
  { stake := stake, systemNumber := systemNumber, userNumber := userNumber,
    won := decide (systemNumber < userNumber),
    payout := if systemNumber < userNumber then stake * payoutPercentage else 0,
    status := SessionStatus.ended }

/-! ## Claim theorems -/

/-- C10: toApiAmount returns 0 when the amount is NaN (none) or not
strictly positive, and otherwise returns the floor of the amount scaled
by 10 to the decimals power, with decimals defaulting to 8; the result
is always a non-negative integer. -/
theorem toApiAmount_spec (amt : Option ℚ) (d : ℕ) :
    0 ≤ toApiAmount amt d ∧
    toApiAmount none d = 0 ∧
    (∀ a : ℚ, a ≤ 0 → toApiAmount (some a) d = 0) ∧
    (∀ a : ℚ, 0 < a →
      toApiAmount (some a) d = Int.floor (a * (10 : ℚ) ^ d)) ∧
    (∀ a : ℚ, 0 < a →
      toApiAmount (some a) = Int.floor (a * (10 : ℚ) ^ 8)) := by
  refine ⟨?_, rfl, ?_, ?_, ?_⟩
  · cases amt with
    | none => simp [toApiAmount]
    | some a =>
      by_cases h : a ≤ 0
      · simp [toApiAmount, h]
      · push_neg at h
        have hpos : (0 : ℚ) ≤ a * (10 : ℚ) ^ d :=
          le_of_lt (mul_pos h (by positivity))
        simp only [toApiAmount, if_neg (not_le.mpr h)]
        exact Int.floor_nonneg.mpr hpos
  · intro a ha
    simp [toApiAmount, ha]
  · intro a ha
    simp [toApiAmount, not_le.mpr ha]
  · intro a ha
    simp [toApiAmount, not_le.mpr ha]

/-- Witness for C10 at concrete inputs: a negative amount maps to 0 and
a positive amount maps to the scaled floor. -/
theorem toApiAmount_spec_witness :
    toApiAmount (some (-(1 : ℚ))) 8 = 0 ∧
    toApiAmount (some ((3 : ℚ) / 2)) 2 = 150 := by
  constructor
  · exact (toApiAmount_spec (some (-(1 : ℚ))) 8).2.2.1 (-(1 : ℚ)) (by norm_num)
  · have h := (toApiAmount_spec (some ((3 : ℚ) / 2)) 2).2.2.2.1 ((3 : ℚ) / 2)
      (by norm_num)
    rw [h]
    norm_num

/-- C9: every number in a NumberResult event emitted by the contract
callback, and every value a successful generateRandomNumber call
returns, lies in the range 0 through 9: the raw random word is reduced
modulo 10. -/
theorem randomNumber_range (s r : ℕ) :
    (entropyCallback s r).randomNumber < 10 ∧
    (entropyCallback s r).randomNumber = r % 10 ∧
    (∀ seq acceptBlock : ℕ, ∀ events : List WatchedLog, ∀ v : ℕ,
      generateRandomNumber seq acceptBlock events = Except.ok v → v < 10) := by
  refine ⟨?_, rfl, ?_⟩
  · show r % 10 < 10
    exact Nat.mod_lt r (by norm_num)
  intro seq acceptBlock events v h
  unfold generateRandomNumber at h
  cases ho : (runWatch seq acceptBlock events).outcome with
  | pending => rw [ho] at h; exact absurd h (by simp)
  | timedOut => rw [ho] at h; exact absurd h (by simp)
  | resolved w =>
    rw [ho] at h
    have hv : w % 10 = v := by
      simpa using h
    rw [← hv]
    exact Nat.mod_lt w (by norm_num)

/-- Witness for C9: a concrete resolved request yields a value below
10. -/
theorem randomNumber_range_witness :
    (entropyCallback 7 123456).randomNumber < 10 ∧ (2 : ℕ) < 10 := by
  refine ⟨(randomNumber_range 7 123456).1, ?_⟩
  exact (randomNumber_range 7 123456).2.2 5 3 [⟨3, 100, 5, 42⟩] 2 rfl

/-- C5: a requestNumber call whose value is below the fee quoted by the
provider at submission time reverts with InsufficientFee and submits no
randomness request to the provider. -/
theorem requestNumber_insufficient_fee (fee nextSeq msgValue : ℕ)
    (h : msgValue < fee) :
    requestNumber fee nextSeq msgValue =
      (RequestOutcome.reverted GNError.insufficientFee, []) := by
  simp [requestNumber, h]

/-- Witness for C5: paying 3 wei against a 5 wei quote reverts without a
provider request. -/
theorem requestNumber_insufficient_fee_witness :
    requestNumber 5 0 3 =
      (RequestOutcome.reverted GNError.insufficientFee, []) :=
  requestNumber_insufficient_fee 5 0 3 (by norm_num)

/-- Delivering logs none of which match the sequence id leaves the
watch state unchanged. -/
theorem foldl_deliverLog_no_match (seq : ℕ) (l : List WatchedLog)
    (s : WatchState) (h : ∀ e ∈ l, e.sequenceNumber ≠ seq) :
    l.foldl (deliverLog seq) s = s := by
  induction l generalizing s with
  | nil => rfl
  | cons x xs ih =>
    have hx : x.sequenceNumber ≠ seq := h x (List.mem_cons_self x xs)
    have hxs : ∀ e ∈ xs, e.sequenceNumber ≠ seq :=
      fun e he => h e (List.mem_cons_of_mem x he)
    simp only [List.foldl_cons, deliverLog, if_neg hx]
    exact ih s hxs

/-- Once the promise has resolved and the watch is cancelled, delivering
any further log leaves the state unchanged. -/
theorem deliverLog_after_resolved (seq v : ℕ) (e : WatchedLog) :
    deliverLog seq ⟨false, WatchOutcome.resolved v⟩ e =
      ⟨false, WatchOutcome.resolved v⟩ := by
  by_cases h : e.sequenceNumber = seq <;> simp [deliverLog, h]

/-- A resolved, cancelled watch state absorbs any further log
deliveries. -/
theorem foldl_deliverLog_after_resolved (seq v : ℕ) (l : List WatchedLog) :
    l.foldl (deliverLog seq) ⟨false, WatchOutcome.resolved v⟩ =
      ⟨false, WatchOutcome.resolved v⟩ := by
  induction l with
  | nil => rfl
  | cons x xs ih =>
    simp only [List.foldl_cons, deliverLog_after_resolved]
    exact ih

/-- The fold over the delivered logs resolves with the first log whose
sequence id matches, cancelling the watch. -/
theorem foldl_deliverLog_find (seq : ℕ) (l : List WatchedLog)
    (e0 : WatchedLog)
    (h : l.find? (fun e => e.sequenceNumber == seq) = some e0) :
    l.foldl (deliverLog seq) initWatch =
      ⟨false, WatchOutcome.resolved e0.randomNumber⟩ := by
  induction l with
  | nil => simp [List.find?] at h
  | cons x xs ih =>
    by_cases hx : x.sequenceNumber = seq
    · have hfind : (x :: xs).find? (fun e => e.sequenceNumber == seq) = some x := by
        simp [List.find?, hx]
      rw [hfind] at h
      injection h with h
      subst h
      simp only [List.foldl_cons, deliverLog, if_pos hx, initWatch]
      exact foldl_deliverLog_after_resolved seq x.randomNumber xs
    · have hbeq : (x.sequenceNumber == seq) = false := beq_eq_false_iff_ne.mpr hx
      have hfind : (x :: xs).find? (fun e => e.sequenceNumber == seq) =
          xs.find? (fun e => e.sequenceNumber == seq) := by
        simp [List.find?, hbeq]
      rw [hfind] at h
      simp only [List.foldl_cons, deliverLog, if_neg hx]
      exact ih h

/-- C3: when no matching result event is observed within the 60-second
timeout window, the request fails terminally: the watch is cancelled,
generateRandomNumber surfaces an error, and the /random handler maps it
to a single 500 response without invoking the generator again. -/
theorem oracle_timeout_terminal (seq acceptBlock : ℕ)
    (events : List WatchedLog)
    (h : ∀ e ∈ observedLogs acceptBlock events, e.sequenceNumber ≠ seq) :
    runWatch seq acceptBlock events = ⟨false, WatchOutcome.timedOut⟩ ∧
    generateRandomNumber seq acceptBlock events =
      Except.error "Timeout waiting for random number" ∧
    randomEndpoint seq acceptBlock events = (⟨500, false, none⟩, 1) := by
  have hrun : runWatch seq acceptBlock events = ⟨false, WatchOutcome.timedOut⟩ := by
    unfold runWatch
    rw [foldl_deliverLog_no_match seq _ initWatch h]
    rfl
  refine ⟨hrun, ?_, ?_⟩
  · unfold generateRandomNumber
    rw [hrun]
  · unfold randomEndpoint generateRandomNumber
    rw [hrun]

/-- Witness for C3: a request whose only events are a wrong sequence id
and a matching event arriving after the 60-second window times out with
a 500 response. -/
theorem oracle_timeout_terminal_witness :
    runWatch 5 10 [⟨10, 100, 7, 3⟩, ⟨11, 70000, 5, 4⟩] =
      ⟨false, WatchOutcome.timedOut⟩ ∧
    generateRandomNumber 5 10 [⟨10, 100, 7, 3⟩, ⟨11, 70000, 5, 4⟩] =
      Except.error "Timeout waiting for random number" ∧
    randomEndpoint 5 10 [⟨10, 100, 7, 3⟩, ⟨11, 70000, 5, 4⟩] =
      (⟨500, false, none⟩, 1) :=
  oracle_timeout_terminal 5 10 [⟨10, 100, 7, 3⟩, ⟨11, 70000, 5, 4⟩]
    (by decide)

/-- C4: the watch covers every block from the accepted block onward,
resolution honors the first delivered log whose sequence id matches,
and a later duplicate event with the same sequence id produces no
further effect on the watch state. -/
theorem first_match_honored (seq acceptBlock : ℕ)
    (events : List WatchedLog) (e0 d : WatchedLog)
    (h : (observedLogs acceptBlock events).find?
      (fun e => e.sequenceNumber == seq) = some e0)
    (hd : d.sequenceNumber = seq) :
    runWatch seq acceptBlock events =
      ⟨false, WatchOutcome.resolved e0.randomNumber⟩ ∧
    generateRandomNumber seq acceptBlock events =
      Except.ok (e0.randomNumber % 10) ∧
    runWatch seq acceptBlock (events ++ [d]) =
      runWatch seq acceptBlock events ∧
    (∀ b : ℕ, acceptBlock ≤ b → watchFromBlock acceptBlock ≤ b) := by
  have hfold : (observedLogs acceptBlock events).foldl (deliverLog seq)
      initWatch = ⟨false, WatchOutcome.resolved e0.randomNumber⟩ :=
    foldl_deliverLog_find seq _ e0 h
  have hrun : runWatch seq acceptBlock events =
      ⟨false, WatchOutcome.resolved e0.randomNumber⟩ := by
    unfold runWatch
    rw [hfold]
    rfl
  refine ⟨hrun, ?_, ?_, ?_⟩
  · unfold generateRandomNumber
    rw [hrun]
  · unfold runWatch observedLogs
    rw [List.filter_append]
    rw [List.foldl_append]
    have hfold2 : (List.filter
        (fun e => watchFromBlock acceptBlock ≤ e.block &&
          e.time < watchTimeoutMs) events).foldl (deliverLog seq) initWatch =
        ⟨false, WatchOutcome.resolved e0.randomNumber⟩ := hfold
    rw [hfold2]
    cases hfl : List.filter
        (fun e => watchFromBlock acceptBlock ≤ e.block &&
          e.time < watchTimeoutMs) [d] with
    | nil => rfl
    | cons x xs =>
      have hx : x ∈ List.filter
          (fun e => watchFromBlock acceptBlock ≤ e.block &&
            e.time < watchTimeoutMs) [d] := by
        rw [hfl]; exact List.mem_cons_self x xs
      have hxs : xs = [] := by
        have hlen := congrArg List.length hfl
        have hle : (List.filter
            (fun e => watchFromBlock acceptBlock ≤ e.block &&
              e.time < watchTimeoutMs) [d]).length ≤ 1 :=
          le_trans (List.length_filter_le _ _) (by norm_num)
        rw [hfl] at hle
        simp at hle
        exact hle
    
      subst hxs
      have hxd : x = d := by
        have := List.mem_filter.mp hx
        simpa using this.1
      subst hxd
      simp only [List.foldl_cons, List.foldl_nil,
        deliverLog_after_resolved]
  · intro b hb
    exact le_trans (Nat.sub_le acceptBlock 1) hb

/-- Witness for C4: with a first matching event of value 42 and a later
duplicate of value 99, the watch resolves to 42 and the duplicate
leaves the state unchanged. -/
theorem first_match_honored_witness :
    runWatch 5 10 [⟨9, 100, 7, 1⟩, ⟨10, 200, 5, 42⟩, ⟨11, 300, 5, 99⟩] =
      ⟨false, WatchOutcome.resolved 42⟩ ∧
    generateRandomNumber 5 10
      [⟨9, 100, 7, 1⟩, ⟨10, 200, 5, 42⟩, ⟨11, 300, 5, 99⟩] =
      Except.ok 2 ∧
    runWatch 5 10 ([⟨9, 100, 7, 1⟩, ⟨10, 200, 5, 42⟩, ⟨11, 300, 5, 99⟩] ++
        [⟨12, 400, 5, 77⟩]) =
      runWatch 5 10 [⟨9, 100, 7, 1⟩, ⟨10, 200, 5, 42⟩, ⟨11, 300, 5, 99⟩] ∧
    watchFromBlock 10 ≤ 10 := by
  have h := first_match_honored 5 10
    [⟨9, 100, 7, 1⟩, ⟨10, 200, 5, 42⟩, ⟨11, 300, 5, 99⟩]
    ⟨10, 200, 5, 42⟩ ⟨12, 400, 5, 77⟩ (by decide) (by decide)
  exact ⟨h.1, h.2.1, h.2.2.1, h.2.2.2 10 (le_refl 10)⟩

/-- C2 counterexample: the claim says an HTTP 400 failure is never
retried automatically, i.e. exactly one request is issued. With a
server persistently answering 400, the client issues 3 requests, not
1: retryRequest does not exempt status 400 from its retry loop. -/
theorem http400_is_retried_counterexample :
    (sendRequest (fun _ => ⟨400, "Insufficient balance"⟩)).2 = 3 ∧
    ¬ (sendRequest (fun _ => ⟨400, "Insufficient balance"⟩)).2 = 1 := by
  have h : sendRequest (fun _ => ⟨400, "Insufficient balance"⟩) =
      (Except.error ("HTTP " ++ toString 400), 3) := by
    simp [sendRequest, retryRequest, makeRequest, respOk, retryAttemptBudget]
  rw [h]
  exact ⟨rfl, by norm_num⟩

/-- C2 amended: a game-API request that persistently fails with HTTP
400 is surfaced to the caller as a thrown error, but only after the
client automatically retried it: retryRequest issues
API_CONFIG.RETRY.ATTEMPTS = 3 requests in total before the error
propagates, treating 400 like any other failure. -/
theorem http400_retried_then_surfaced (responses : ℕ → HttpResp)
    (h : ∀ k, (responses k).status = 400) :
    sendRequest responses =
      (Except.error ("HTTP " ++ toString 400), retryAttemptBudget) := by
  have hm : ∀ k, makeRequest (responses k) =
      Except.error ("HTTP " ++ toString 400) := by
    intro k
    simp [makeRequest, respOk, h k]
  simp [sendRequest, retryRequest, hm, retryAttemptBudget]

/-- Witness for the amended C2: a server that always answers 400 with an
insufficient-balance body produces one surfaced error after three
issued requests. -/
theorem http400_retried_then_surfaced_witness :
    sendRequest (fun _ => ⟨400, "Bad Request"⟩) =
      (Except.error ("HTTP " ++ toString 400), retryAttemptBudget) :=
  http400_retried_then_surfaced (fun _ => ⟨400, "Bad Request"⟩)
    (fun _ => rfl)

/-- C1: starting from any reconciled ledger state, after every sequence
of completed BalanceLedger operations (debit, credit, record_if_new)
every user's stored balance equals the sum of that user's transaction
amounts: no operation makes the log and the balance diverge. -/
theorem ledger_reconciliation (ops : List LedgerOp) (s0 : LedgerState)
    (h : LedgerConsistent s0) :
    LedgerConsistent (ops.foldl applyLedgerOp s0) := by
  induction ops generalizing s0 with
  | nil => exact h
  | cons op rest ih =>
    exact ih (applyLedgerOp s0 op) (applyLedgerOp_consistent s0 op h)

/-- Witness for C1: a concrete operation sequence over the empty ledger
(credit, successful debit, failing debit, duplicate deposit) stays
reconciled. -/
theorem ledger_reconciliation_witness :
    LedgerConsistent
      (([LedgerOp.recordIfNew "tx1" "alice" 50,
         LedgerOp.recordIfNew "tx1" "alice" 50,
         LedgerOp.debit "alice" TxnKind.gameStake 20,
         LedgerOp.debit "alice" TxnKind.gameStake 1000,
         LedgerOp.credit "alice" TxnKind.gameWin 40]).foldl
        applyLedgerOp emptyLedger) :=
  ledger_reconciliation _ emptyLedger (fun _ => rfl)

/-- C7: an Apex Blinder session draws both numbers at start and
auto-resolves in the same call: the session ends immediately, the
outcome is a win exactly when the user's number strictly exceeds the
system's, a win pays stake times the fixed payout percentage, and a tie
or a loss pays 0. -/
theorem apex_blinder_spec (stake payoutPercentage : ℚ)
    (systemNumber userNumber : ℕ) :
    (apexBlinderStart stake systemNumber userNumber payoutPercentage).status =
      SessionStatus.ended ∧
    ((apexBlinderStart stake systemNumber userNumber payoutPercentage).won =
      true ↔ systemNumber < userNumber) ∧
    (apexBlinderStart stake systemNumber userNumber payoutPercentage).payout =
      (if systemNumber < userNumber then stake * payoutPercentage else 0) ∧
    (systemNumber = userNumber →
      (apexBlinderStart stake systemNumber userNumber payoutPercentage).payout
        = 0) ∧
    ((apexBlinderStart stake systemNumber userNumber payoutPercentage).won =
        false →
      (apexBlinderStart stake systemNumber userNumber payoutPercentage).payout
        = 0) := by
  refine ⟨rfl, by simp [apexBlinderStart], rfl, ?_, ?_⟩
  · intro h
    simp [apexBlinderStart, h]
  · intro h
    simp only [apexBlinderStart, decide_eq_false_iff_not] at h
    simp [apexBlinderStart, h]

/-- Witness for C7: a tie pays 0 and a strict win pays stake times the
percentage. -/
theorem apex_blinder_spec_witness :
    (apexBlinderStart 10 5 5 (22 / 10)).payout = 0 ∧
    (apexBlinderStart 10 3 7 (22 / 10)).payout = 22 := by
  constructor
  · exact (apex_blinder_spec 10 (22 / 10) 5 5).2.2.2.1 rfl
  · have h := (apex_blinder_spec 10 (22 / 10) 3 7).2.2.1
    rw [h]
    norm_num

/-- The Mines session of claim C6 right after start: stake 10, 9 cells,
1 mine (hidden at cell 8). -/
def c6s0 : MinesSession :=
  ⟨10, 9, 1, {8}, [], SessionStatus.active, 1, none⟩

/-- The C6 session after revealing the safe cell 0. -/
def c6s1 : MinesSession :=
  ⟨10, 9, 1, {8}, [0], SessionStatus.active, minesMultiplier 9 1 1, none⟩

/-- The C6 session after cashing out. -/
def c6s2 : MinesSession :=
  { c6s1 with status := SessionStatus.ended,
              finalPayout := some (round2 (10 * minesMultiplier 9 1 1)) }

/-- Evaluation of the C6 start call: the stake of 10 is debited and an
Active session on 9 cells with the mine at cell 8 is created. -/
theorem minesStart_c6_eval : minesStart 100 10 9 1 {8} = Except.ok (c6s0, 90) := by
  rw [minesStart]
  rw [if_neg (not_not_intro ⟨le_refl 1, by norm_num, by decide⟩)]
  rw [if_neg (not_not_intro ⟨Finset.card_singleton 8, by
    intro c hc
    rw [Finset.mem_singleton] at hc
    subst hc
    norm_num⟩)]
  rw [if_neg (by norm_num)]
  have h90 : (100 : ℚ) - 10 = 90 := by norm_num
  rw [h90]
  rfl

/-- C6: on a 3 by 3 grid (9 cells) with 1 mine and stake 10, revealing
one safe cell yields multiplier (1 - 1/100) * (9 / 8) = 891/800 =
1.11375, the house-edge discount applied once to the cumulative
multiplier; cashing out then yields final payout 11.14 and an Ended
session. -/
theorem mines_scenario_3x3 :
    minesStart 100 10 9 1 {8} = Except.ok (c6s0, 90) ∧
    minesReveal c6s0 0 = Except.ok c6s1 ∧
    c6s1.currentMultiplier = (1 - houseEdge) * (9 / 8) ∧
    c6s1.currentMultiplier = 891 / 800 ∧
    minesCashout c6s1 = Except.ok c6s2 ∧
    c6s2.finalPayout = some (1114 / 100) ∧
    c6s2.status = SessionStatus.ended := by
  have hmult : minesMultiplier 9 1 1 = 891 / 800 := by
    norm_num [minesMultiplier, rawMultiplier, houseEdge]
  refine ⟨minesStart_c6_eval, ?_, ?_, ?_, ?_, ?_, rfl⟩
  · rw [minesReveal]
    simp only [c6s0, c6s1]
    rw [if_neg (by simp)]
    rw [if_neg (by simp)]
    rw [if_neg (by norm_num)]
    rw [if_neg (by simp [Finset.mem_singleton])]
    simp only [List.length_nil]
    rw [if_neg (by norm_num)]
  · rw [show c6s1.currentMultiplier = minesMultiplier 9 1 1 from rfl, hmult]
    norm_num [houseEdge]
  · exact hmult
  · rw [minesCashout]
    rw [if_neg (by simp [c6s1])]
    rw [if_neg (by simp [c6s1])]
    rfl
  · rw [show c6s2.finalPayout = some (round2 (10 * minesMultiplier 9 1 1))
      from rfl, hmult, round2]
    norm_num

/-- C8: whenever starting a Mines session succeeds, the returned
session has status Active, zero revealed cells and current multiplier
equal to 1. -/
theorem minesStart_active (balance stake : ℚ) (blocks mines : ℕ)
    (layout : Finset ℕ) (s : MinesSession) (bal2 : ℚ)
    (h : minesStart balance stake blocks mines layout = Except.ok (s, bal2)) :
    s.status = SessionStatus.active ∧ s.revealed = [] ∧
    s.currentMultiplier = 1 := by
  rw [minesStart] at h
  split at h
  · exact absurd h (by simp)
  · split at h
    · exact absurd h (by simp)
    · split at h
      · exact absurd h (by simp)
      · injection h with h
        injection h with h1 h2
        subst h1
        exact ⟨rfl, rfl, rfl⟩

/-- Witness for C8: the concrete start of claim C6 produces an Active
session with no reveals and multiplier 1. -/
theorem minesStart_active_witness :
    c6s0.status = SessionStatus.active ∧ c6s0.revealed = [] ∧
    c6s0.currentMultiplier = 1 :=
  minesStart_active 100 10 9 1 {8} c6s0 90 minesStart_c6_eval
